import Mathlib

/-!
Verification of the dada-poem tool (`create_dada_poem.py`, `app.py`).

The Python source is shallowly embedded below.  External collaborators
(Pillow image decoding, the Tesseract OCR call, and the spaCy pipeline)
are parameters of the embedded functions, as the spec declares them
black boxes.  Randomness (`random.shuffle`) is modelled by an oracle
`shuffle : Nat → List String → List String` giving the outcome of the
k-th shuffle call; theorems that depend on shuffling being a permutation
take the hypothesis `∀ k l, List.Perm (shuffle k l) l`.
-/

namespace DadaPoem

/-! ### Character-level model

Python string predicates (`str.isupper`, `str.islower`, `str.isalpha`,
`str.isdigit`, `str.lower`, the regex class `\w`) are Unicode-aware.  The
model restricts them to ASCII plus the German special characters that
this program cares about (ä ö ü Ä Ö Ü ß); every input appearing in the
spec and the claims lies in this alphabet. -/

def isUpperChar (c : Char) : Bool :=
  c.isUpper || c = 'Ä' || c = 'Ö' || c = 'Ü'

def isLowerChar (c : Char) : Bool :=
  c.isLower || c = 'ä' || c = 'ö' || c = 'ü' || c = 'ß'

def isAlphaChar (c : Char) : Bool :=
  isUpperChar c || isLowerChar c

def isDigitChar (c : Char) : Bool :=
  c.isDigit

/-- The regex class `\w`: letters, digits and the underscore. -/
def isWordChar (c : Char) : Bool :=
  isAlphaChar c || isDigitChar c || c = '_'

def toLowerChar (c : Char) : Char :=
  if c = 'Ä' then 'ä' else if c = 'Ö' then 'ö' else if c = 'Ü' then 'ü' else c.toLower

/-! ### Tokenization

`re.findall(r"\b\w+\b", text)` returns the maximal runs of `\w`
characters of the text, in order.  `runsAux p cs acc` scans `cs`
accumulating the current run (reversed) in `acc`. -/

def runsAux (p : Char → Bool) : List Char → List Char → List String
  | [], acc => if acc.isEmpty then [] else [String.mk acc.reverse]
  | c :: cs, acc =>
    if p c then runsAux p cs (c :: acc)
    else if acc.isEmpty then runsAux p cs []
    else String.mk acc.reverse :: runsAux p cs []

/-- `re.findall(r"\b\w+\b", text)`: maximal runs of word characters. -/
def findall_word_tokens (text : String) : List String :=
  runsAux isWordChar text.data []

/-! ### Heuristic classifier (`extract_nouns_verbs_heuristic`) -/

/-- Python `token.isdigit()`: nonempty and all digits. -/
def token_isdigit (t : String) : Bool :=
  !t.data.isEmpty && t.data.all isDigitChar

/-- Python `token.isalpha()`: nonempty and all alphabetic. -/
def token_isalpha (t : String) : Bool :=
  !t.data.isEmpty && t.data.all isAlphaChar

/-- Python `token.lower()`. -/
def token_lower (t : String) : String :=
  String.mk (t.data.map toLowerChar)

/-- Python `token[0].isupper()` (the token is nonempty whenever this is
reached, since tokens of length ≤ 1 were skipped). -/
def first_isupper (t : String) : Bool :=
  match t.data with
  | [] => false
  | c :: _ => isUpperChar c

/-- `german_verb_endings = ("en", "st", "t", "end")`. -/
def german_verb_endings : List String := ["en", "st", "t", "end"]

/-- Python `s.endswith(e)`: `e` is a suffix of `s`. -/
def ends_with (s e : String) : Bool :=
  e.data.isSuffixOf s.data

/-- Python `lower.endswith(german_verb_endings)`: true when the string
ends with any of the tuple's suffixes. -/
def has_verb_suffix (t : String) : Bool :=
  german_verb_endings.any (fun e => ends_with (token_lower t) e)

/-- The loop body of `extract_nouns_verbs_heuristic`, as the decision
whether a token is appended to `words`:
skip if `len(token) <= 1 or token.isdigit()`; keep if `token[0].isupper()`;
keep if `token.lower().endswith(german_verb_endings)`; keep if
`token.isalpha() and len(token) > 3`. -/
def keep_token (token : String) : Bool :=
  if token.length ≤ 1 || token_isdigit token then false
  else if first_isupper token then true
  else if has_verb_suffix token then true
  else token_isalpha token && decide (3 < token.length)

/-- `extract_nouns_verbs_heuristic` (create_dada_poem.py lines 216–256):
tokenize with `re.findall(r"\b\w+\b", text)` and keep the tokens the
loop body appends. -/
def extract_nouns_verbs_heuristic (text : String) : List String :=
  (findall_word_tokens text).filter keep_token

/-- Alphanumeric characters only (no underscore). -/
def isAlnumChar (c : Char) : Bool :=
  isAlphaChar c || isDigitChar c

/-- Modelled from the spec's words, for comparison with the source: the
claim describes the tokenizer as splitting on "alphanumeric runs", so
this variant tokenizes on maximal alphanumeric runs (excluding the
underscore, which the source's `\w` includes) and applies the same
keep rules. -/
def heuristic_claim_tokenization (text : String) : List String :=
  (runsAux isAlnumChar text.data []).filter keep_token

/-! ### Language detection (`detect_language`, lines 163–185) -/

/-- `german_chars = set("äöüÄÖÜß")`. -/
def german_chars : List Char := ['ä', 'ö', 'ü', 'Ä', 'Ö', 'Ü', 'ß']

/-- `detect_language`: "de" if any character of the text is in
`german_chars`, else "en". -/
def detect_language (text : String) : String :=
  if text.data.any (fun ch => german_chars.contains ch) then "de" else "en"

/-- Python `str.strip()`: the string without leading and trailing
whitespace (`not text.strip()` is `strip text = ""`). -/
def strip (t : String) : String :=
  String.mk (((t.data.dropWhile Char.isWhitespace).reverse.dropWhile
    Char.isWhitespace).reverse)

/-! ### Poem assembly (`assemble_poem`, lines 259–291)

`random.shuffle` is modelled by the oracle `shuffle k l`, the outcome of
the k-th shuffle call of the run applied to the current list `l`. -/

/-- The empty-pool placeholder line of `assemble_poem`. -/
def placeholder_line : String := "(keine Wörter gefunden)"

/-- `segment_size = max(2, min(5, len(words_list) // lines or 2))`
(line 280); Python `x or 2` yields 2 when `x == 0`. -/
def segment_size (k lines : Nat) : Nat :=
  max 2 (min 5 (if k / lines = 0 then 2 else k / lines))

/-- The `for _ in range(lines)` loop of `assemble_poem` (lines 282–290),
returning the word segments of the lines (each line of the poem is the
space-join of its segment).  State: remaining iterations, the current
`words_list`, the cursor `idx`, and the index `sc` of the next shuffle
call.  If `idx >= len(words_list)` the list is reshuffled and the cursor
reset; the segment is `words_list[idx : idx + segment_size]`. -/
def assembleSegments (shuffle : Nat → List String → List String) (seg : Nat) :
    Nat → List String → Nat → Nat → List (List String)
  | 0, _, _, _ => []
  | m + 1, words_list, idx, sc =>
    if words_list.length ≤ idx then
      (((shuffle sc words_list).drop 0).take seg) ::
        assembleSegments shuffle seg m (shuffle sc words_list) (0 + seg) (sc + 1)
    else
      ((words_list.drop idx).take seg) ::
        assembleSegments shuffle seg m words_list (idx + seg) sc

/-- `assemble_poem(words, lines)`: copy the input, shuffle it (`shuffle 0`),
return `lines` placeholder copies if empty, else compute `segment_size`
once and emit `lines` space-joined segments. -/
def assemble_poem (shuffle : Nat → List String → List String)
    (words : List String) (lines : Nat) : List String :=
  let words_list := shuffle 0 words
  if words_list = [] then List.replicate lines placeholder_line
  else
    let seg := segment_size words_list.length lines
    (assembleSegments shuffle seg lines words_list 0 1).map (String.intercalate " ")

/-! ### OCR wrapper (`extract_text`, lines 109–128)

`Image.open` and `pytesseract.image_to_string` are external; the
parameter `ocr` maps the image path to the combined outcome of decoding
plus OCR: `Except.error exc` when either raises, `Except.ok text`
otherwise (possibly empty text). -/

/-- `extract_text`: on success return the OCR text unchanged; on any
exception raise `RuntimeError(f"Unable to open or process image
'{image_path}': {exc}")`. -/
def extract_text (image_path : String) (ocr : String → Except String String) :
    Except String String :=
  match ocr image_path with
  | Except.error exc =>
      Except.error ("Unable to open or process image '" ++ image_path ++ "': " ++ exc)
  | Except.ok text => Except.ok text

/-! ### CLI pipeline (`main`, lines 294–327) -/

/-- Outcome of one CLI run of `main` after argument parsing. -/
inductive CliOutcome
  | fileError
  | ocrError (msg : String)
  | noText
  | noWords
  | poem (output : List String)
deriving DecidableEq

/-- `main` after argument parsing: missing file → error exit; OCR failure
propagates as the `RuntimeError` of `extract_text`; blank text → the
"No text detected" message (success exit); then language detection,
model loading (`nlpAvailable`, external) selecting the spaCy extractor
(external `spacyExtract`) or the heuristic fallback; empty word list →
the "no nouns or verbs found" message (success exit); else the poem. -/
def run_cli (fileExists : Bool) (image : String) (ocr : String → Except String String)
    (langArg : Option String) (nlpAvailable : String → Bool)
    (spacyExtract : String → List String)
    (shuffle : Nat → List String → List String) : CliOutcome :=
  if fileExists = false then CliOutcome.fileError
  else
    match extract_text image ocr with
    | Except.error m => CliOutcome.ocrError m
    | Except.ok text =>
      if strip text = "" then CliOutcome.noText
      else
        let lang := langArg.getD (detect_language text)
        let words :=
          if nlpAvailable lang then spacyExtract text
          else extract_nouns_verbs_heuristic text
        if words = [] then CliOutcome.noWords
        else CliOutcome.poem (assemble_poem shuffle words 6)

/-! ### Web handler (`app.py`, `generate`, lines 25–59)

The temp-file lifecycle is tracked explicitly: `tempCreated` records
that `tempfile.NamedTemporaryFile(delete=False, ...)` ran, and
`tempDeleted` records that `os.unlink(tmp.name)` ran.  In the source the
unlink stands after the `with` block and is not in a `finally`, so when
`extract_text` raises, the exception propagates and the unlink is
skipped. -/

/-- HTTP-level outcome of `generate`. -/
inductive GenResponse
  | badRequestNoFile
  | badRequestNoText
  | page (poem : List String)
  | exception (msg : String)
deriving DecidableEq

/-- Result of `generate` together with the temp-file bookkeeping. -/
structure GenResult where
  response : GenResponse
  tempCreated : Bool
  tempDeleted : Bool
deriving DecidableEq

/-- `generate`: reject a missing upload; save the upload to a temp file
and OCR it; on OCR/decode failure the `RuntimeError` propagates and
`os.unlink` is skipped; on blank text return the "Kein Text im Bild
gefunden" error; else classify (spaCy if a model loads, heuristic
otherwise) and render either the fixed six-line "Keine Substantive oder
Verben gefunden" block or the assembled poem. -/
def generate (hasFile : Bool) (ocr : String → Except String String)
    (nlpAvailable : String → Bool) (spacyExtract : String → List String)
    (shuffle : Nat → List String → List String) (tmpName : String) : GenResult :=
  if hasFile = false then
    { response := GenResponse.badRequestNoFile, tempCreated := false, tempDeleted := false }
  else
    match extract_text tmpName ocr with
    | Except.error m =>
        { response := GenResponse.exception m, tempCreated := true, tempDeleted := false }
    | Except.ok text =>
      if strip text = "" then
        { response := GenResponse.badRequestNoText, tempCreated := true, tempDeleted := true }
      else
        let lang := detect_language text
        let words :=
          if nlpAvailable lang then spacyExtract text
          else extract_nouns_verbs_heuristic text
        let poem_lines :=
          if words = [] then List.replicate 6 "Keine Substantive oder Verben gefunden"
          else assemble_poem shuffle words 6
        { response := GenResponse.page poem_lines, tempCreated := true, tempDeleted := true }

/-! ### Heap model of `assemble_poem` (for the frame property)

Python lists are mutable objects; `list(words)` allocates a fresh list
and `random.shuffle(words_list)` mutates only the object it is given.
To state that the caller's list is not mutated, the heap of list objects
is explicit: references are indices into `heap`, allocation appends, and
a shuffle writes the shuffled contents back at its reference. -/

/-- `random.shuffle` applied at reference `r`: writes the outcome of the
k-th shuffle call back into the heap cell. -/
def shuffle_at (shuffle : Nat → List String → List String) (k : Nat)
    (heap : List (List String)) (r : Nat) : List (List String) :=
  heap.set r (shuffle k (heap.getD r []))

/-- The `for` loop of `assemble_poem` on the heap: reads and reshuffles
only the cell `r` that holds `words_list`.  Returns the final heap and
the joined lines. -/
def poem_loop_py (shuffle : Nat → List String → List String) (seg : Nat) :
    Nat → List (List String) → Nat → Nat → Nat → List (List String) × List String
  | 0, heap, _, _, _ => (heap, [])
  | m + 1, heap, r, idx, sc =>
    if (heap.getD r []).length ≤ idx then
      let heap2 := shuffle_at shuffle sc heap r
      let segment := ((heap2.getD r []).drop 0).take seg
      let rest := poem_loop_py shuffle seg m heap2 r (0 + seg) (sc + 1)
      (rest.1, String.intercalate " " segment :: rest.2)
    else
      let segment := ((heap.getD r []).drop idx).take seg
      let rest := poem_loop_py shuffle seg m heap r (idx + seg) sc
      (rest.1, String.intercalate " " segment :: rest.2)

/-- `assemble_poem` on the heap: `words_list = list(words)` allocates a
fresh cell copying cell `r`; `random.shuffle(words_list)` writes at the
fresh cell; the loop runs on the fresh cell.  Returns the final heap and
the poem. -/
def assemble_poem_py (shuffle : Nat → List String → List String)
    (heap : List (List String)) (r : Nat) (lines : Nat) :
    List (List String) × List String :=
  let r2 := heap.length
  let heap1 := heap ++ [heap.getD r []]
  let heap2 := shuffle_at shuffle 0 heap1 r2
  if heap2.getD r2 [] = [] then (heap2, List.replicate lines placeholder_line)
  else
    let seg := segment_size (heap2.getD r2 []).length lines
    poem_loop_py shuffle seg lines heap2 r2 0 1

/-! ### Helper lemmas -/

theorem length_assembleSegments (shuffle : Nat → List String → List String) (seg : Nat) :
    ∀ (m : Nat) (ws : List String) (idx sc : Nat),
      (assembleSegments shuffle seg m ws idx sc).length = m := by
  intro m
  induction m with
  | zero => intro ws idx sc; rfl
  | succ m ih =>
    intro ws idx sc
    rw [assembleSegments]
    split <;> simp [ih]

theorem assembleSegments_mem_of_perm (shuffle : Nat → List String → List String)
    (h : ∀ k l, List.Perm (shuffle k l) l) (words : List String) (seg : Nat) :
    ∀ (m : Nat) (ws : List String) (idx sc : Nat), List.Perm ws words →
      ∀ s ∈ assembleSegments shuffle seg m ws idx sc, ∀ w ∈ s, w ∈ words := by
  intro m
  induction m with
  | zero => intro ws idx sc _ s hs; simp [assembleSegments] at hs
  | succ m ih =>
    intro ws idx sc hp s hs
    rw [assembleSegments] at hs
    split at hs <;> rcases List.mem_cons.mp hs with hhd | htl
    · intro w hw
      subst hhd
      exact (((h sc ws).trans hp).subset)
        (List.mem_of_mem_drop (List.mem_of_mem_take hw))
    · exact ih (shuffle sc ws) (0 + seg) (sc + 1) ((h sc ws).trans hp) s htl
    · intro w hw
      subst hhd
      exact hp.subset (List.mem_of_mem_drop (List.mem_of_mem_take hw))
    · exact ih ws (idx + seg) sc hp s htl

/-! ### Claim theorems -/

/-- Claim C1: for every input word list (of any size, including 0) and
every positive line count, `assemble_poem` returns a list of exactly
that many lines. -/
theorem assemble_poem_length_eq (shuffle : Nat → List String → List String)
    (words : List String) (lines : Nat) (h : 0 < lines) :
    (assemble_poem shuffle words lines).length = lines := by
  unfold assemble_poem
  dsimp only
  split
  · simp
  · simp [length_assembleSegments]

/-- Witness for C1: even a pool of size 1 yields 6 lines. -/
theorem assemble_poem_length_eq_witness :
    (assemble_poem (fun _ l => l) ["x"] 6).length = 6 :=
  assemble_poem_length_eq (fun _ l => l) ["x"] 6 (by decide)

/-- Counterexample for C2: the fixed placeholder line of the code is the
German "(keine Wörter gefunden)", not "(no words found)" as the claim
states. -/
theorem assemble_poem_empty_placeholder_cex :
    assemble_poem (fun _ l => l) [] 6 ≠ List.replicate 6 "(no words found)" := by
  decide

/-- Claim C2 (amended): if the input word list is empty, `assemble_poem`
short-circuits and returns `lines` copies of the fixed placeholder line
"(keine Wörter gefunden)". -/
theorem assemble_poem_empty_placeholder (shuffle : Nat → List String → List String)
    (h : ∀ k l, List.Perm (shuffle k l) l) (lines : Nat) :
    assemble_poem shuffle [] lines = List.replicate lines placeholder_line := by
  have h0 : shuffle 0 [] = [] := (h 0 []).eq_nil
  simp [assemble_poem, h0]

/-- Witness for C2. -/
theorem assemble_poem_empty_placeholder_witness :
    assemble_poem (fun _ l => l) [] 6 = List.replicate 6 placeholder_line :=
  assemble_poem_empty_placeholder (fun _ l => l) (fun _ l => List.Perm.refl l) 6

/-- Claim C3: `segment_size` is the single per-poem value
`max(2, min(5, k // lines or 2))`; it always lies in [2, 5], and a
floored division of 0 yields 2.  (In the embedding the value is computed
once in `assemble_poem` and passed unchanged to every loop iteration.) -/
theorem segment_size_range (k lines : Nat) :
    2 ≤ segment_size k lines ∧ segment_size k lines ≤ 5 ∧
      (k / lines = 0 → segment_size k lines = 2) := by
  unfold segment_size
  by_cases hq : k / lines = 0
  · rw [if_pos hq]
    exact ⟨by decide, by decide, fun _ => by decide⟩
  · rw [if_neg hq]
    exact ⟨Nat.le_max_left _ _,
      Nat.max_le.mpr ⟨by decide, Nat.min_le_left _ _⟩,
      fun hc => absurd hc hq⟩

/-- Witness for C3 at the pool of the spec's scenario (k = 3, N = 6). -/
theorem segment_size_range_witness :
    2 ≤ segment_size 3 6 ∧ segment_size 3 6 ≤ 5 ∧ segment_size 3 6 = 2 :=
  ⟨(segment_size_range 3 6).1, (segment_size_range 3 6).2.1,
    (segment_size_range 3 6).2.2 (by decide)⟩

/-- Counterexample for C4: for the empty input word list the returned
lines consist of placeholder words ("keine", "Wörter", "gefunden") that
are not elements of the (empty) input list. -/
theorem assemble_poem_pool_cex :
    (assemble_poem (fun _ l => l) [] 6).getD 0 "" = "(keine Wörter gefunden)" ∧
    "keine" ∈ findall_word_tokens ((assemble_poem (fun _ l => l) [] 6).getD 0 "") ∧
    "keine" ∉ ([] : List String) :=
  ⟨rfl, by decide, by decide⟩

/-- Claim C4 (amended): for every non-empty input word list and every
outcome of the shuffles, each line returned by `assemble_poem` is the
space-join of a segment all of whose words are elements of the input
word list; no word is fabricated. -/
theorem assemble_poem_words_from_pool (shuffle : Nat → List String → List String)
    (h : ∀ k l, List.Perm (shuffle k l) l) (words : List String) (lines : Nat)
    (hw : words ≠ []) (line : String)
    (hl : line ∈ assemble_poem shuffle words lines) :
    ∃ s : List String, (∀ w ∈ s, w ∈ words) ∧ line = String.intercalate " " s := by
  have hne : shuffle 0 words ≠ [] := by
    intro h0
    apply hw
    have hp := h 0 words
    rw [h0] at hp
    exact hp.symm.eq_nil
  unfold assemble_poem at hl
  dsimp only at hl
  rw [if_neg hne] at hl
  rcases List.mem_map.mp hl with ⟨s, hs, hjoin⟩
  exact ⟨s, assembleSegments_mem_of_perm shuffle h words _ lines (shuffle 0 words)
    0 1 (h 0 words) s hs, hjoin.symm⟩

/-- Witness for C4 at pool ["a", "b", "c"] and the identity shuffle
outcome, instantiated at the first line "a b". -/
theorem assemble_poem_words_from_pool_witness :
    ∃ s : List String, (∀ w ∈ s, w ∈ (["a", "b", "c"] : List String)) ∧
      "a b" = String.intercalate " " s :=
  assemble_poem_words_from_pool (fun _ l => l) (fun _ l => List.Perm.refl l)
    ["a", "b", "c"] 6 (by decide) "a b" (by decide)

/-- Counterexample for C5: for the pool ["a", "b", "c"] and 6 lines
(identity shuffle outcome), the second line is the single leftover word
"c" — the cursor (2) has not passed the end (3), so no reshuffle happens
before line 2 and it does not take 2 fresh words. -/
theorem assemble_three_pool_cex :
    assemble_poem (fun _ l => l) ["a", "b", "c"] 6 =
      ["a b", "c", "a b", "c", "a b", "c"] ∧
    (assembleSegments (fun _ l => l) 2 6 ["a", "b", "c"] 0 1).map List.length =
      [2, 1, 2, 1, 2, 1] :=
  ⟨rfl, rfl⟩

/-- Claim C5 (amended): for a pool of exactly 3 words and 6 lines,
`segment_size` is 2; line 1 takes 2 words (cursor 2), line 2 takes the
single remaining word without a reshuffle (cursor 4), the reshuffle
happens before line 3 when the cursor has passed the end, and the lines
alternate 2 and 1 words until 6 lines are produced. -/
theorem assemble_three_pool_six_lines (shuffle : Nat → List String → List String)
    (h : ∀ k l, List.Perm (shuffle k l) l) (ws : List String) (hlen : ws.length = 3) :
    segment_size ws.length 6 = 2 ∧
    (assembleSegments shuffle 2 6 (shuffle 0 ws) 0 1).map List.length =
      [2, 1, 2, 1, 2, 1] ∧
    assemble_poem shuffle ws 6 =
      (assembleSegments shuffle 2 6 (shuffle 0 ws) 0 1).map (String.intercalate " ") := by
  have l0 : (shuffle 0 ws).length = 3 := by rw [(h 0 ws).length_eq, hlen]
  have l1 : (shuffle 1 (shuffle 0 ws)).length = 3 := by
    rw [(h 1 (shuffle 0 ws)).length_eq, l0]
  have l2 : (shuffle 2 (shuffle 1 (shuffle 0 ws))).length = 3 := by
    rw [(h 2 (shuffle 1 (shuffle 0 ws))).length_eq, l1]
  have hseg : segment_size ws.length 6 = 2 := by
    rw [hlen]
    decide
  have hne : shuffle 0 ws ≠ [] := by
    intro h0
    rw [h0] at l0
    simp at l0
  refine ⟨hseg, ?_, ?_⟩
  · simp [assembleSegments, l0, l1, l2]
  · unfold assemble_poem
    dsimp only
    rw [if_neg hne, l0, hlen.symm, hseg]

/-- Witness for C5 at the concrete pool ["a", "b", "c"] and the identity
shuffle outcome. -/
theorem assemble_three_pool_six_lines_witness :
    segment_size (["a", "b", "c"] : List String).length 6 = 2 ∧
    (assembleSegments (fun _ l => l) 2 6 ["a", "b", "c"] 0 1).map List.length =
      [2, 1, 2, 1, 2, 1] ∧
    assemble_poem (fun _ l => l) ["a", "b", "c"] 6 =
      (assembleSegments (fun _ l => l) 2 6 ["a", "b", "c"] 0 1).map
        (String.intercalate " ") :=
  assemble_three_pool_six_lines (fun _ l => l) (fun _ l => List.Perm.refl l)
    ["a", "b", "c"] (by decide)

theorem keep_token_eq_true_iff (t : String) :
    keep_token t = true ↔
      (1 < t.length ∧ token_isdigit t = false ∧
        (first_isupper t = true ∨ has_verb_suffix t = true ∨
          (token_isalpha t = true ∧ 3 < t.length))) := by
  unfold keep_token
  split_ifs with h1 h2 h3
  · simp only [Bool.or_eq_true, decide_eq_true_eq] at h1
    constructor
    · intro habs; exact absurd habs (by simp)
    · rintro ⟨hlen, hdig, _⟩
      rcases h1 with hle | hd
      · omega
      · rw [hd] at hdig; exact absurd hdig (by simp)
  · simp only [Bool.or_eq_true, decide_eq_true_eq, not_or] at h1
    simp only [true_iff]
    refine ⟨by omega, by simpa using h1.2, Or.inl h2⟩
  · simp only [Bool.or_eq_true, decide_eq_true_eq, not_or] at h1
    simp only [true_iff]
    refine ⟨by omega, by simpa using h1.2, Or.inr (Or.inl h3)⟩
  · simp only [Bool.or_eq_true, decide_eq_true_eq, not_or] at h1
    simp only [Bool.and_eq_true, decide_eq_true_eq]
    constructor
    · rintro ⟨ha, hlen⟩
      exact ⟨by omega, by simpa using h1.2, Or.inr (Or.inr ⟨ha, hlen⟩)⟩
    · rintro ⟨_, _, hcase⟩
      rcases hcase with hu | hs | hal
      · exact absurd hu h2
      · exact absurd hs h3
      · exact hal

/-- Counterexample for C6: the source tokenizes on runs of the regex
class `\w`, which includes the underscore, not on pure alphanumeric
runs.  On "en_x" the source sees the single token "en_x" and keeps
nothing, while tokenizing on alphanumeric runs would produce the token
"en" and keep it (verb suffix "en"). -/
theorem heuristic_tokenization_cex :
    extract_nouns_verbs_heuristic "en_x" = [] ∧
    heuristic_claim_tokenization "en_x" = ["en"] :=
  ⟨rfl, rfl⟩

/-- Claim C6 (amended): the heuristic classifier tokenizes on runs of
word characters (alphanumeric or underscore, the regex class `\w`),
discards tokens of length ≤ 1 or purely numeric ones, and keeps exactly
the tokens whose first character is uppercase (regardless of suffix), or
whose lowercase form ends in one of "en", "st", "t", "end", or which are
purely alphabetic and longer than 3 characters; all other tokens are
discarded.  In particular "Apfel", "rennen" and "wonderful" are kept and
"big" is discarded. -/
theorem heuristic_classification (text w : String) :
    (w ∈ extract_nouns_verbs_heuristic text ↔
      (w ∈ findall_word_tokens text ∧ 1 < w.length ∧ token_isdigit w = false ∧
        (first_isupper w = true ∨ has_verb_suffix w = true ∨
          (token_isalpha w = true ∧ 3 < w.length)))) ∧
    extract_nouns_verbs_heuristic "Apfel rennen big wonderful" =
      ["Apfel", "rennen", "wonderful"] := by
  constructor
  · rw [extract_nouns_verbs_heuristic, List.mem_filter, keep_token_eq_true_iff]
  · rfl

/-- Counterexample for C7: `german_chars` in the source also contains
the uppercase umlauts, so "SÜD" yields "de" although it contains none of
the four characters ä, ö, ü, ß named by the claim. -/
theorem detect_language_uppercase_cex :
    detect_language "SÜD" = "de" ∧ detect_language "SÜD" ≠ "en" ∧
    "SÜD".data.all (fun c => !(['ä', 'ö', 'ü', 'ß'].contains c)) = true :=
  ⟨rfl, by decide, by decide⟩

/-- Claim C7 (amended): `detect_language` returns "de" exactly when the
string contains one of ä, ö, ü, Ä, Ö, Ü, ß, and "en" exactly when it
contains none of them; it always returns one of the two values.  In
particular `detect_language "Größe" = "de"` and
`detect_language "Size" = "en"`. -/
theorem detect_language_characterization (text : String) :
    (detect_language text = "de" ↔ ∃ c ∈ text.data, c ∈ german_chars) ∧
    (detect_language text = "en" ↔ ∀ c ∈ text.data, c ∉ german_chars) ∧
    (detect_language text = "de" ∨ detect_language text = "en") ∧
    detect_language "Größe" = "de" ∧ detect_language "Size" = "en" := by
  have hgr : detect_language "Größe" = "de" := by decide
  have hsz : detect_language "Size" = "en" := by decide
  have hiff : text.data.any (fun ch => german_chars.contains ch) = true ↔
      ∃ c ∈ text.data, c ∈ german_chars := by
    simp [List.any_eq_true, List.contains, List.elem_iff]
  unfold detect_language
  by_cases h : text.data.any (fun ch => german_chars.contains ch) = true
  · rw [if_pos h]
    refine ⟨⟨fun _ => hiff.mp h, fun _ => rfl⟩,
      ⟨fun habs => absurd habs (by decide), fun hall => ?_⟩, Or.inl rfl, hgr, hsz⟩
    rcases hiff.mp h with ⟨c, hc, hcg⟩
    exact absurd hcg (hall c hc)
  · rw [if_neg h]
    have hno : ∀ c ∈ text.data, c ∉ german_chars := by
      intro c hc hcg
      exact h (hiff.mpr ⟨c, hc, hcg⟩)
    exact ⟨⟨fun habs => absurd habs (by decide),
        fun hex => absurd (hiff.mpr hex) h⟩,
      ⟨fun _ => hno, fun _ => rfl⟩, Or.inr rfl, hgr, hsz⟩

/-- Claim C8: `extract_text` fails exactly when the decode/OCR call
fails, and then with the "Unable to open or process image" error; on
success the OCR text is returned unchanged, even when empty; and the
CLI caller treats whitespace-only text as the distinct no-text outcome
rather than an error. -/
theorem extract_text_failure_semantics (image : String)
    (ocr : String → Except String String) (langArg : Option String)
    (nlpAvailable : String → Bool) (spacyExtract : String → List String)
    (shuffle : Nat → List String → List String) :
    (∀ e, ocr image = Except.error e →
        extract_text image ocr =
          Except.error ("Unable to open or process image '" ++ image ++ "': " ++ e)) ∧
    (∀ t, ocr image = Except.ok t → extract_text image ocr = Except.ok t) ∧
    (∀ t, ocr image = Except.ok t → strip t = "" →
        run_cli true image ocr langArg nlpAvailable spacyExtract shuffle =
          CliOutcome.noText) := by
  refine ⟨fun e he => ?_, fun t ht => ?_, fun t ht htrim => ?_⟩
  · unfold extract_text
    rw [he]
  · unfold extract_text
    rw [ht]
  · unfold run_cli extract_text
    rw [ht]
    simp [htrim]

/-- Witness for C8: a failing decode, a whitespace-only OCR result, and
the resulting CLI no-text outcome. -/
theorem extract_text_failure_semantics_witness :
    extract_text "shot.png" (fun _ => Except.error "boom") =
      Except.error ("Unable to open or process image '" ++ "shot.png" ++ "': " ++ "boom") ∧
    extract_text "shot.png" (fun _ => Except.ok " \n ") = Except.ok " \n " ∧
    run_cli true "shot.png" (fun _ => Except.ok " \n ") none (fun _ => false)
      (fun _ => []) (fun _ l => l) = CliOutcome.noText :=
  ⟨(extract_text_failure_semantics "shot.png" (fun _ => Except.error "boom") none
      (fun _ => false) (fun _ => []) (fun _ l => l)).1 "boom" rfl,
   (extract_text_failure_semantics "shot.png" (fun _ => Except.ok " \n ") none
      (fun _ => false) (fun _ => []) (fun _ l => l)).2.1 " \n " rfl,
   (extract_text_failure_semantics "shot.png" (fun _ => Except.ok " \n ") none
      (fun _ => false) (fun _ => []) (fun _ l => l)).2.2 " \n " rfl (by rfl)⟩

/-- Claim C9 (refuting theorem, evaluating `generate` on its exit
paths): the temp file is deleted on the success path and on the
empty-text path, but when `extract_text` fails the exception propagates
before `os.unlink` runs and the temp file is NOT deleted — contrary to
the claim that every exit path deletes it. -/
theorem generate_temp_file_lifecycle :
    ((generate true (fun _ => Except.error "cannot identify image file")
        (fun _ => false) (fun _ => []) (fun _ l => l) "/tmp/upload.png").tempCreated
          = true ∧
     (generate true (fun _ => Except.error "cannot identify image file")
        (fun _ => false) (fun _ => []) (fun _ l => l) "/tmp/upload.png").tempDeleted
          = false) ∧
    (generate true (fun _ => Except.ok "  ") (fun _ => false) (fun _ => [])
        (fun _ l => l) "/tmp/upload.png").tempDeleted = true ∧
    (generate true (fun _ => Except.ok "Haus rennen") (fun _ => false) (fun _ => [])
        (fun _ l => l) "/tmp/upload.png").tempDeleted = true :=
  ⟨⟨rfl, rfl⟩, rfl, rfl⟩

/-! ### Frame property of `assemble_poem` on the heap -/

theorem getD_set_ne {α : Type} (l : List α) (i j : Nat) (x d : α) (hij : i ≠ j) :
    (l.set i x).getD j d = l.getD j d := by
  induction l generalizing i j with
  | nil => rfl
  | cons a as ih =>
    cases i with
    | zero =>
      cases j with
      | zero => exact absurd rfl hij
      | succ j => rfl
    | succ i =>
      cases j with
      | zero => rfl
      | succ j =>
        simpa [List.set, List.getD_cons_succ] using ih i j (fun e => hij (by rw [e]))

theorem getD_append_of_lt {α : Type} (l l2 : List α) (j : Nat) (d : α)
    (h : j < l.length) : (l ++ l2).getD j d = l.getD j d := by
  induction l generalizing j with
  | nil => simp at h
  | cons a as ih =>
    cases j with
    | zero => rfl
    | succ j =>
      simpa [List.getD_cons_succ] using ih j (by simpa using h)

theorem poem_loop_py_frame (shuffle : Nat → List String → List String) (seg : Nat) :
    ∀ (m : Nat) (heap : List (List String)) (r idx sc j : Nat), j ≠ r →
      ((poem_loop_py shuffle seg m heap r idx sc).1).getD j [] = heap.getD j [] := by
  intro m
  induction m with
  | zero => intro heap r idx sc j hj; rfl
  | succ m ih =>
    intro heap r idx sc j hj
    rw [poem_loop_py]
    split
    · dsimp only
      rw [ih (shuffle_at shuffle sc heap r) r (0 + seg) (sc + 1) j hj]
      exact getD_set_ne heap r j _ [] (fun e => hj e.symm)
    · dsimp only
      exact ih heap r (idx + seg) sc j hj

/-- Claim C10: `assemble_poem` never mutates its caller's word list.  In
the heap model, `list(words)` allocates a fresh cell and every shuffle
writes only to that fresh cell, so the caller's cell `r` holds exactly
the same list after the call. -/
theorem assemble_poem_caller_unchanged (shuffle : Nat → List String → List String)
    (heap : List (List String)) (r lines : Nat) (h : r < heap.length) :
    ((assemble_poem_py shuffle heap r lines).1).getD r [] = heap.getD r [] := by
  unfold assemble_poem_py
  dsimp only
  have hr : r ≠ heap.length := Nat.ne_of_lt h
  have e1 : (heap ++ [heap.getD r []]).getD r [] = heap.getD r [] :=
    getD_append_of_lt heap [heap.getD r []] r [] h
  have e2 : (shuffle_at shuffle 0 (heap ++ [heap.getD r []]) heap.length).getD r []
      = heap.getD r [] := by
    rw [shuffle_at, getD_set_ne _ heap.length r _ [] (fun e => hr e.symm), e1]
  split
  · exact e2
  · rw [poem_loop_py_frame shuffle _ lines _ heap.length 0 1 r hr, e2]

/-- Witness for C10 at a concrete heap holding the caller's list at
reference 0. -/
theorem assemble_poem_caller_unchanged_witness :
    ((assemble_poem_py (fun _ l => l) [["a", "b", "c"]] 0 6).1).getD 0 [] =
      ([["a", "b", "c"]] : List (List String)).getD 0 [] :=
  assemble_poem_caller_unchanged (fun _ l => l) [["a", "b", "c"]] 0 6 (by decide)

end DadaPoem
